import Mathlib

/-!
# Bikewatching: station traffic pipeline of `map.js`

A shallow embedding of the data-processing part of `src/map.js`:
the time codec (`minutesSinceMidnight`), the trip filter (`filterTripsByTime`),
the traffic aggregator (`computeStationTraffic`), the two scales
(`radiusScale`, `stationFlow`) and the recompute controller
(`updateScatterPlot`, `updateTimeDisplay`).

JavaScript numbers that can be `NaN` in this code are `Option`s whose `none`
is `NaN`; object properties that may be absent are `Option`s whose `none` is
`undefined`.  The functions of the d3 library the code calls (`rollup`, `max`,
`scaleSqrt`, `scaleQuantize`) are embedded from the library's implementation.
-/

namespace Bikewatching

/-! ## Data model -/

/-- A JavaScript `Date` as the code observes it: either an invalid date (the result
of `new Date(s)` on an unparseable string) or a wall-clock hour and minute. -/
inductive JSDate where
  | invalid : JSDate
  | wallclock (hours : Fin 24) (minutes : Fin 60) : JSDate
  deriving DecidableEq, Repr

/-- A trip record of the CSV after the row conversion of lines 138-142. -/
structure Trip where
  start_station_id : String
  end_station_id : String
  started_at : JSDate
  ended_at : JSDate
  deriving DecidableEq, Repr

/-- A station object.  The three derived properties are absent (`none`) on a freshly
loaded station and are written by `computeStationTraffic`. -/
structure Station where
  short_name : String
  name : String
  arrivals : Option Nat
  departures : Option Nat
  totalTraffic : Option Nat
  deriving DecidableEq, Repr

/-! ## JavaScript numbers with NaN -/

/-- An integer-valued JavaScript number, `none` standing for `NaN`. -/
abbrev JSNum := Option Int

/-- The operator `a * b`. -/
def jsMul (a b : JSNum) : JSNum :=
  match a, b with
  | some x, some y => some (x * y)
  | _, _ => none

/-- The operator `a + b`. -/
def jsAdd (a b : JSNum) : JSNum :=
  match a, b with
  | some x, some y => some (x + y)
  | _, _ => none

/-- The operator `a - b`. -/
def jsSub (a b : JSNum) : JSNum :=
  match a, b with
  | some x, some y => some (x - y)
  | _, _ => none

/-- The function `Math.abs`. -/
def jsAbs (a : JSNum) : JSNum :=
  match a with
  | some x => some |x|
  | none => none

/-- The comparison `a <= b`, false as soon as one side is `NaN`. -/
def jsLe (a b : JSNum) : Bool :=
  match a, b with
  | some x, some y => decide (x ≤ y)
  | _, _ => false

/-- The method `Date.prototype.getHours`. -/
def getHours (date : JSDate) : JSNum :=
  match date with
  | .invalid => none
  | .wallclock h _ => some (h.val : Int)

/-- The method `Date.prototype.getMinutes`. -/
def getMinutes (date : JSDate) : JSNum :=
  match date with
  | .invalid => none
  | .wallclock _ m => some (m.val : Int)

/-! ## Time codec and trip filter (lines 33-50) -/

/-- Minutes since midnight of a date: `date.getHours() * 60 + date.getMinutes()`. -/
def minutesSinceMidnight (date : JSDate) : JSNum :=
  jsAdd (jsMul (getHours date) (some 60)) (getMinutes date)

/-- The callback of `trips.filter` in `filterTripsByTime`. -/
def tripInWindow (timeFilter : Int) (trip : Trip) : Bool :=
  let startedMinutes := minutesSinceMidnight trip.started_at
  let endedMinutes := minutesSinceMidnight trip.ended_at
  jsLe (jsAbs (jsSub startedMinutes (some timeFilter))) (some 60) ||
    jsLe (jsAbs (jsSub endedMinutes (some timeFilter))) (some 60)

/-- Filter trips by `timeFilter`, `-1` meaning any time. -/
def filterTripsByTime (trips : List Trip) (timeFilter : Int) : List Trip :=
  if timeFilter = -1 then trips
  else trips.filter (tripInWindow timeFilter)

/-! ## d3.rollup and Map lookup -/

/-- The method `Map.prototype.get` on a map kept as its entries in insertion order. -/
def mapGet {κ β : Type} [DecidableEq κ] (m : List (κ × β)) (key : κ) : Option β :=
  match m with
  | [] => none
  | (k, v) :: rest => if k = key then some v else mapGet rest key

/-- Push `value` onto the group stored under `key` (the entry is known to exist). -/
def groupPush {κ α : Type} [DecidableEq κ] (m : List (κ × List α)) (key : κ) (value : α) :
    List (κ × List α) :=
  match m with
  | [] => []
  | (k, g) :: rest =>
    if k = key then (k, g ++ [value]) :: rest else (k, g) :: groupPush rest key value

/-- One iteration of the grouping loop of d3: `group.push(value)` when the key has a
group, `groups.set(key, [value])` otherwise. -/
def groupStep {κ α : Type} [DecidableEq κ] (keyof : α → κ) (groups : List (κ × List α))
    (value : α) : List (κ × List α) :=
  let key := keyof value
  match mapGet groups key with
  | some _ => groupPush groups key value
  | none => groups ++ [(key, [value])]

/-- The function `d3.rollup(values, reduce, key)` with a single key: group the values
by key, then replace every group by `reduce group`. -/
def rollup {κ α β : Type} [DecidableEq κ] (values : List α) (reduce : List α → β)
    (keyof : α → κ) : List (κ × β) :=
  (values.foldl (groupStep keyof) []).map (fun kv => (kv.1, reduce kv.2))

/-! ## Traffic aggregator (lines 53-73) -/

/-- Compute arrivals, departures and totalTraffic for each station. -/
def computeStationTraffic (stations : List Station) (trips : List Trip) : List Station :=
  let departures := rollup trips List.length (fun d => d.start_station_id)
  let arrivals := rollup trips List.length (fun d => d.end_station_id)
  stations.map fun station =>
    let id := station.short_name
    let a := (mapGet arrivals id).getD 0
    let d := (mapGet departures id).getD 0
    { station with arrivals := some a, departures := some d, totalTraffic := some (a + d) }

/-! ## Scale mappers (lines 149-157) -/

/-- The body of the loop of `d3.max`: `max = value` when the value is defined and
`max < value`, or when `max` is still `undefined`. -/
def maxStep {α : Type} (valueof : α → Option Nat) (max : Option Nat) (value : α) : Option Nat :=
  match valueof value, max with
  | some v, some m => if m < v then some v else some m
  | some v, none => some v
  | none, m => m

/-- The function `d3.max(values, valueof)`: the largest defined value, `none`
(JavaScript `undefined`) when there is none. -/
def d3max {α : Type} (values : List α) (valueof : α → Option Nat) : Option Nat :=
  values.foldl (maxStep valueof) none

/-- The transform of `d3.scaleSqrt`: `x < 0 ? -Math.sqrt(-x) : Math.sqrt(x)`, over the reals. -/
noncomputable def transformSqrt (x : ℝ) : ℝ :=
  if x < 0 then -Real.sqrt (-x) else Real.sqrt x

/-- The function `normalize(a, b)` of d3-scale: `x => (x - a) / b` with `b -= a`, the
constant `0.5` when that difference is zero. -/
noncomputable def normalize (a b : ℝ) (x : ℝ) : ℝ :=
  if b - a ≠ 0 then (x - a) / (b - a) else 0.5

/-- The function `d3.interpolateNumber(a, b)`: `t => a * (1 - t) + b * t`. -/
noncomputable def interpolateNumber (a b : ℝ) (t : ℝ) : ℝ :=
  a * (1 - t) + b * t

/-- The function `bimap(domain, range, interpolate)` of d3-scale on the transformed
two-element domain `[d0, d1]` and range `[r0, r1]`. -/
noncomputable def bimap (d0 d1 r0 r1 : ℝ) (x : ℝ) : ℝ :=
  if d1 < d0 then interpolateNumber r1 r0 (normalize d1 d0 x)
  else interpolateNumber r0 r1 (normalize d0 d1 x)

/-- The scale `d3.scaleSqrt().domain([0, domainMax]).range([2, 40])` applied to a
defined number (the scale is not clamped). -/
noncomputable def radiusScale (domainMax : Nat) (x : Nat) : ℝ :=
  bimap (transformSqrt 0) (transformSqrt (domainMax : ℝ)) 2 40 (transformSqrt (x : ℝ))

/-- The thresholds `rescale()` of `d3.scaleQuantize` computes for the domain `[x0, x1]`
and a range of `n + 1` values: `((i + 1) * x1 - (i - n) * x0) / (n + 1)` for `i < n`. -/
def quantizeThresholds (x0 x1 : ℚ) (n : Nat) : List ℚ :=
  (List.range n).map fun i => (((i : ℚ) + 1) * x1 - ((i : ℚ) - (n : ℚ)) * x0) / ((n : ℚ) + 1)

/-- The loop of `bisectRight`: binary search between `lo` and `hi`, at most `fuel` halvings. -/
def bisectLoop (a : List ℚ) (x : ℚ) : Nat → Nat → Nat → Nat
  | 0, lo, _ => lo
  | fuel + 1, lo, hi =>
    if lo < hi then
      let mid := (lo + hi) / 2
      if a.getD mid 0 ≤ x then bisectLoop a x fuel (mid + 1) hi
      else bisectLoop a x fuel lo mid
    else lo

/-- The function `d3.bisectRight(a, x, lo, hi)` for a number `x` that is not `NaN`. -/
def bisectRight (a : List ℚ) (x : ℚ) (lo hi : Nat) : Nat :=
  bisectLoop a x (hi - lo) lo hi

/-- The scale `d3.scaleQuantize().domain([x0, x1]).range(range)`; a `NaN` argument
(`none`) gives the scale's unknown value, `undefined` (`none`). -/
def scaleQuantize (x0 x1 : ℚ) (range : List ℚ) (x : Option ℚ) : Option ℚ :=
  match x with
  | none => none
  | some v =>
    let n := range.length - 1
    range.get? (bisectRight (quantizeThresholds x0 x1 n) v 0 n)

/-- The scale `stationFlow = d3.scaleQuantize().domain([0, 1]).range([0, 0.5, 1])`. -/
def stationFlow (ratio : Option ℚ) : Option ℚ :=
  scaleQuantize 0 1 [0, 1 / 2, 1] ratio

/-- The constant `ratio` of the departure-ratio callback:
`d.totalTraffic > 0 ? d.departures / d.totalTraffic : 0.5`; `none` is `NaN`. -/
def departureRatio (d : Station) : Option ℚ :=
  match d.totalTraffic with
  | some t =>
    if t > 0 then
      match d.departures with
      | some dep => some ((dep : ℚ) / (t : ℚ))
      | none => none
    else some (1 / 2)
  | none => some (1 / 2)

/-- The value the callback of `.style('--departure-ratio', ...)` returns for a station. -/
def departureRatioStyle (d : Station) : Option ℚ :=
  stationFlow (departureRatio d)

/-- The value of the callback of `.attr('r', ...)`, for a station whose `totalTraffic`
is set: `radiusScale(d.totalTraffic)`. -/
noncomputable def radiusAttr (domainMax : Nat) (d : Station) : Option ℝ :=
  d.totalTraffic.map (radiusScale domainMax)

/-! ## Recompute controller (lines 146, 202-233) -/

/-- The variables of the load handler the recomputation reads and writes: the global
`timeFilter`, the station objects (mutated in place by every aggregation), the trips
loaded once, and the maximum that fixed the domain of `radiusScale`. -/
structure AppState where
  timeFilter : Int
  stations : List Station
  trips : List Trip
  domainMax : Option Nat
  deriving DecidableEq, Repr

/-- The state after lines 146-152: initial aggregation over all trips, then the
radius scale's domain from the stations' totals. -/
def initialState (stations : List Station) (trips : List Trip) : AppState :=
  let stations1 := computeStationTraffic stations trips
  { timeFilter := -1
    stations := stations1
    trips := trips
    domainMax := d3max stations1 (fun d => d.totalTraffic) }

/-- The function `updateScatterPlot(currentFilter)`: filter the trips, aggregate onto
the station objects. -/
def updateScatterPlot (st : AppState) (currentFilter : Int) : AppState :=
  let filteredTrips := filterTripsByTime st.trips currentFilter
  let filteredStations := computeStationTraffic st.stations filteredTrips
  { st with stations := filteredStations }

/-- The function `updateTimeDisplay()`, `sliderValue` being `Number(timeSlider.value)`. -/
def updateTimeDisplay (st : AppState) (sliderValue : Int) : AppState :=
  let st1 := { st with timeFilter := sliderValue }
  updateScatterPlot st1 st1.timeFilter

/-- The controller after a sequence of slider inputs. -/
def runInputs (stations : List Station) (trips : List Trip) (inputs : List Int) : AppState :=
  inputs.foldl updateTimeDisplay (initialState stations trips)

/-! ## Scenario data of the specification -/

/-- A freshly loaded station with the given key. -/
def freshStation (key : String) : Station :=
  { short_name := key, name := key, arrivals := none, departures := none, totalTraffic := none }

/-- Stations `A` and `B`. -/
def scenarioStations : List Station := [freshStation "A", freshStation "B"]

/-- Trips `A -> B` (08:00-08:10) and `B -> A` (08:05-08:20). -/
def scenarioTrips : List Trip :=
  [ { start_station_id := "A", end_station_id := "B",
      started_at := .wallclock 8 0, ended_at := .wallclock 8 10 },
    { start_station_id := "B", end_station_id := "A",
      started_at := .wallclock 8 5, ended_at := .wallclock 8 20 } ]

/-! ## Specification-side notions -/

/-- The window predicate of the specification on one timestamp: the timestamp is a
wall-clock time whose minute of the day `hours * 60 + minutes` is within 60 of `center`. -/
def withinWindow (date : JSDate) (center : Int) : Prop :=
  match date with
  | .invalid => False
  | .wallclock h m => |((h.val : Int) * 60 + (m.val : Int)) - center| ≤ 60

instance decidableWithinWindow (date : JSDate) (center : Int) :
    Decidable (withinWindow date center) := by
  unfold withinWindow
  cases date <;> infer_instance

/-- Distance between two minutes of the day on a 24-hour dial (1440 minutes). -/
def circularDistance (a b : Int) : Int :=
  min |a - b| (1440 - |a - b|)

/-- Number of trips that leave the station with key `id`. -/
def departureCount (trips : List Trip) (id : String) : Nat :=
  trips.countP (fun t => decide (t.start_station_id = id))

/-- Number of trips that end at the station with key `id`. -/
def arrivalCount (trips : List Trip) (id : String) : Nat :=
  trips.countP (fun t => decide (t.end_station_id = id))

/-- A station with its three derived properties set from the given counts. -/
def withCounts (station : Station) (a d : Nat) : Station :=
  { station with arrivals := some a, departures := some d, totalTraffic := some (a + d) }

/-- Size of the group stored under `key`, `0` when the key is absent. -/
def groupSize {κ α : Type} [DecidableEq κ] (m : List (κ × List α)) (key : κ) : Nat :=
  ((mapGet m key).map List.length).getD 0

/-- Stations `A` and `B` carrying stale derived values from an earlier pass. -/
def staleStations : List Station :=
  [ { short_name := "A", name := "A", arrivals := some 7, departures := some 3,
      totalTraffic := some 100 },
    { short_name := "B", name := "B", arrivals := none, departures := some 5,
      totalTraffic := some 0 } ]

/-- A trip between two stations `C` and `D` that are not in the station list. -/
def strayTrip : Trip :=
  { start_station_id := "C", end_station_id := "D",
    started_at := .wallclock 8 0, ended_at := .wallclock 8 10 }

/-- A trip from `A` to `B` that starts and ends at 23:50. -/
def lateTrip : Trip :=
  { start_station_id := "A", end_station_id := "B",
    started_at := .wallclock 23 50, ended_at := .wallclock 23 50 }

/-- A trip from `A` to `B` whose `started_at` did not parse and that ended at 08:10. -/
def halfParsedTrip : Trip :=
  { start_station_id := "A", end_station_id := "B",
    started_at := .invalid, ended_at := .wallclock 8 10 }

/-- A trip from `A` to `B` with neither timestamp parsed. -/
def unparsedTrip : Trip :=
  { start_station_id := "A", end_station_id := "B",
    started_at := .invalid, ended_at := .invalid }

/-- Whether at least one timestamp of the trip parsed. -/
def hasParsedTime (t : Trip) : Bool :=
  decide (t.started_at ≠ .invalid) || decide (t.ended_at ≠ .invalid)

/-- Whether both timestamps of the trip parsed. -/
def fullyParsed (t : Trip) : Bool :=
  decide (t.started_at ≠ .invalid) && decide (t.ended_at ≠ .invalid)

/-! ## Lemmas on the grouping of d3.rollup -/

theorem mapGet_append_single {κ β : Type} [DecidableEq κ] (m : List (κ × β)) (k key : κ) (x : β) :
    mapGet (m ++ [(k, x)]) key =
      match mapGet m key with
      | some v => some v
      | none => if k = key then some x else none := by
  induction m with
  | nil => simp [mapGet]
  | cons kv rest ih =>
    obtain ⟨k0, v0⟩ := kv
    by_cases h : k0 = key
    · simp [mapGet, h]
    · simp [mapGet, h, ih]

theorem mapGet_groupPush {κ α : Type} [DecidableEq κ] (m : List (κ × List α)) (k key : κ)
    (value : α) :
    mapGet (groupPush m k value) key =
      if k = key then (mapGet m key).map (fun g => g ++ [value]) else mapGet m key := by
  induction m with
  | nil => simp [mapGet, groupPush]
  | cons kv rest ih =>
    obtain ⟨k0, g0⟩ := kv
    by_cases h0 : k0 = k
    · subst h0
      by_cases h : k0 = key
      · simp [mapGet, groupPush, h]
      · simp [mapGet, groupPush, h]
    · by_cases h : k0 = key
      · subst h
        have hk : ¬ k = k0 := fun e => h0 e.symm
        simp [mapGet, groupPush, h0, hk]
      · simp [mapGet, groupPush, h0, h, ih]

theorem groupStep_absent {κ α : Type} [DecidableEq κ] (keyof : α → κ)
    (groups : List (κ × List α)) (value : α) (h : mapGet groups (keyof value) = none) :
    groupStep keyof groups value = groups ++ [(keyof value, [value])] := by
  simp only [groupStep, h]

theorem groupStep_present {κ α : Type} [DecidableEq κ] (keyof : α → κ)
    (groups : List (κ × List α)) (value : α) (g : List α)
    (h : mapGet groups (keyof value) = some g) :
    groupStep keyof groups value = groupPush groups (keyof value) value := by
  simp only [groupStep, h]

theorem groupSize_groupStep {κ α : Type} [DecidableEq κ] (keyof : α → κ)
    (groups : List (κ × List α)) (value : α) (key : κ) :
    groupSize (groupStep keyof groups value) key =
      groupSize groups key + (if keyof value = key then 1 else 0) := by
  cases hg : mapGet groups (keyof value) with
  | none =>
    rw [groupStep_absent keyof groups value hg]
    unfold groupSize
    rw [mapGet_append_single]
    by_cases hk : keyof value = key
    · have hg2 : mapGet groups key = none := hk ▸ hg
      simp [hg2, hk]
    · cases mapGet groups key <;> simp [hk]
  | some g =>
    rw [groupStep_present keyof groups value g hg]
    unfold groupSize
    rw [mapGet_groupPush]
    by_cases hk : keyof value = key
    · have hg2 : mapGet groups key = some g := hk ▸ hg
      simp [hg2, hk]
    · simp [hk]

theorem groupSize_foldl {κ α : Type} [DecidableEq κ] (keyof : α → κ) (values : List α)
    (groups : List (κ × List α)) (key : κ) :
    groupSize (values.foldl (groupStep keyof) groups) key =
      groupSize groups key + values.countP (fun v => decide (keyof v = key)) := by
  induction values generalizing groups with
  | nil => simp
  | cons v rest ih =>
    rw [List.foldl_cons, ih, groupSize_groupStep, List.countP_cons]
    by_cases h : keyof v = key
    · simp [h]; omega
    · simp [h]

theorem mapGet_map_snd {κ β γ : Type} [DecidableEq κ] (m : List (κ × β)) (f : β → γ) (key : κ) :
    mapGet (m.map (fun kv => (kv.1, f kv.2))) key = (mapGet m key).map f := by
  induction m with
  | nil => simp [mapGet]
  | cons kv rest ih =>
    obtain ⟨k0, v0⟩ := kv
    by_cases h : k0 = key
    · simp [mapGet, h]
    · simp [mapGet, h, ih]

/-- Looking a key up in `d3.rollup(values, v => v.length, keyof)`, with `?? 0`, counts the
values that have this key. -/
theorem rollup_length_getD {κ α : Type} [DecidableEq κ] (keyof : α → κ) (values : List α)
    (key : κ) :
    (mapGet (rollup values List.length keyof) key).getD 0 =
      values.countP (fun v => decide (keyof v = key)) := by
  have h := groupSize_foldl keyof values [] key
  unfold groupSize at h
  unfold rollup
  rw [mapGet_map_snd, h]
  simp [mapGet]

/-! ## Lemmas on the aggregator -/

/-- The aggregator writes, on every station, the two trip counts of its key and their sum. -/
theorem computeStationTraffic_eq_map (stations : List Station) (trips : List Trip) :
    computeStationTraffic stations trips =
      stations.map (fun s =>
        withCounts s (arrivalCount trips s.short_name) (departureCount trips s.short_name)) := by
  unfold computeStationTraffic
  apply List.map_congr_left
  intro s _
  simp only [rollup_length_getD, withCounts, arrivalCount, departureCount]

/-- A second aggregation overwrites the first. -/
theorem computeStationTraffic_overwrite (stations : List Station) (trips1 trips2 : List Trip) :
    computeStationTraffic (computeStationTraffic stations trips1) trips2 =
      computeStationTraffic stations trips2 := by
  simp only [computeStationTraffic_eq_map, List.map_map]
  apply List.map_congr_left
  intro s _
  simp [withCounts]

/-! ## Lemmas on the trip filter -/

/-- One disjunct of the filter callback is the window predicate on that timestamp. -/
theorem jsLe_abs_sub_iff (date : JSDate) (c : Int) :
    jsLe (jsAbs (jsSub (minutesSinceMidnight date) (some c))) (some 60) = true ↔
      withinWindow date c := by
  cases date with
  | invalid => simp [minutesSinceMidnight, getHours, getMinutes, jsMul, jsAdd, jsSub, jsAbs, jsLe,
      withinWindow]
  | wallclock h m => simp [minutesSinceMidnight, getHours, getMinutes, jsMul, jsAdd, jsSub, jsAbs,
      jsLe, withinWindow]

theorem tripInWindow_iff (c : Int) (t : Trip) :
    tripInWindow c t = true ↔ withinWindow t.started_at c ∨ withinWindow t.ended_at c := by
  unfold tripInWindow
  simp only [Bool.or_eq_true, jsLe_abs_sub_iff]

theorem filterTripsByTime_of_ne (trips : List Trip) (c : Int) (hc : c ≠ -1) :
    filterTripsByTime trips c = trips.filter (tripInWindow c) := by
  simp [filterTripsByTime, hc]

theorem filterTripsByTime_sublist (trips : List Trip) (c : Int) :
    (filterTripsByTime trips c).Sublist trips := by
  unfold filterTripsByTime
  split
  · exact List.Sublist.refl _
  · exact List.filter_sublist _

theorem minutesSinceMidnight_wallclock (h : Fin 24) (m : Fin 60) :
    minutesSinceMidnight (.wallclock h m) = some ((h.val : Int) * 60 + (m.val : Int)) := rfl

theorem minutesSinceMidnight_invalid : minutesSinceMidnight .invalid = none := rfl

/-- A timestamp with minute value `m` is in the window of `c` exactly when `|m - c| ≤ 60`. -/
theorem withinWindow_of_minutes (date : JSDate) (c m : Int)
    (h : minutesSinceMidnight date = some m) : withinWindow date c ↔ |m - c| ≤ 60 := by
  cases date with
  | invalid => simp [minutesSinceMidnight_invalid] at h
  | wallclock hh mm =>
    rw [minutesSinceMidnight_wallclock] at h
    cases h
    rfl

/-! ## Lemmas on the counts -/

theorem arrivalCount_le (trips : List Trip) (c : Int) (id : String) :
    arrivalCount (filterTripsByTime trips c) id ≤ arrivalCount trips id :=
  List.Sublist.countP_le _ (filterTripsByTime_sublist trips c)

theorem departureCount_le (trips : List Trip) (c : Int) (id : String) :
    departureCount (filterTripsByTime trips c) id ≤ departureCount trips id :=
  List.Sublist.countP_le _ (filterTripsByTime_sublist trips c)

/-! ## Lemmas on d3.max -/

theorem maxStep_ge {α : Type} (valueof : α → Option Nat) (acc : Option Nat) (v : α) (t : Nat)
    (h : ∃ M, acc = some M ∧ t ≤ M) : ∃ M, maxStep valueof acc v = some M ∧ t ≤ M := by
  obtain ⟨M, rfl, hM⟩ := h
  unfold maxStep
  cases valueof v with
  | none => exact ⟨M, rfl, hM⟩
  | some x =>
    by_cases hx : M < x
    · exact ⟨x, by simp [hx], by omega⟩
    · exact ⟨M, by simp [hx], hM⟩

theorem maxStep_self {α : Type} (valueof : α → Option Nat) (acc : Option Nat) (v : α) (t : Nat)
    (h : valueof v = some t) : ∃ M, maxStep valueof acc v = some M ∧ t ≤ M := by
  unfold maxStep
  rw [h]
  cases acc with
  | none => exact ⟨t, rfl, le_refl _⟩
  | some m =>
    by_cases hx : m < t
    · exact ⟨t, by simp [hx], le_refl _⟩
    · exact ⟨m, by simp [hx], by omega⟩

theorem d3max_foldl_ge {α : Type} (valueof : α → Option Nat) (values : List α) (acc : Option Nat)
    (t : Nat) (h : ∃ M, acc = some M ∧ t ≤ M) :
    ∃ M, values.foldl (maxStep valueof) acc = some M ∧ t ≤ M := by
  induction values generalizing acc with
  | nil => simpa using h
  | cons v rest ih =>
    rw [List.foldl_cons]
    exact ih _ (maxStep_ge valueof acc v t h)

theorem d3max_foldl_mem {α : Type} (valueof : α → Option Nat) (values : List α) (acc : Option Nat)
    (s : α) (t : Nat) (hs : s ∈ values) (ht : valueof s = some t) :
    ∃ M, values.foldl (maxStep valueof) acc = some M ∧ t ≤ M := by
  induction values generalizing acc with
  | nil => simp at hs
  | cons v rest ih =>
    rw [List.foldl_cons]
    rcases List.mem_cons.mp hs with rfl | hmem
    · exact d3max_foldl_ge valueof rest _ t (maxStep_self valueof acc s t ht)
    · exact ih _ hmem

/-- Every defined value is at most `d3.max`, which is then defined. -/
theorem le_d3max {α : Type} (valueof : α → Option Nat) (values : List α) (s : α) (t : Nat)
    (hs : s ∈ values) (ht : valueof s = some t) :
    ∃ M, d3max values valueof = some M ∧ t ≤ M :=
  d3max_foldl_mem valueof values none s t hs ht

/-! ## Lemmas on the radius scale -/

theorem transformSqrt_natCast (n : Nat) : transformSqrt (n : ℝ) = Real.sqrt (n : ℝ) := by
  unfold transformSqrt
  have h : ¬ ((n : ℝ) < 0) := not_lt.mpr (Nat.cast_nonneg n)
  simp [h]

theorem transformSqrt_zero : transformSqrt 0 = 0 := by
  simp [transformSqrt]

theorem interpolateNumber_bounds (u : ℝ) (h0 : 0 ≤ u) (h1 : u ≤ 1) :
    2 ≤ interpolateNumber 2 40 u ∧ interpolateNumber 2 40 u ≤ 40 := by
  unfold interpolateNumber
  constructor <;> linarith

/-- Inside the domain `[0, domainMax]` the radius stays in the range `[2, 40]`. -/
theorem radiusScale_bounds (domainMax t : Nat) (h : t ≤ domainMax) :
    2 ≤ radiusScale domainMax t ∧ radiusScale domainMax t ≤ 40 := by
  unfold radiusScale bimap
  rw [transformSqrt_zero, transformSqrt_natCast, transformSqrt_natCast]
  have hM : ¬ (Real.sqrt (domainMax : ℝ) < 0) := not_lt.mpr (Real.sqrt_nonneg _)
  rw [if_neg hM]
  apply interpolateNumber_bounds
  · unfold normalize
    split
    · simp only [sub_zero]
      exact div_nonneg (Real.sqrt_nonneg _) (Real.sqrt_nonneg _)
    · norm_num
  · unfold normalize
    split
    · rename_i hne
      simp only [sub_zero] at hne ⊢
      have hpos : 0 < Real.sqrt (domainMax : ℝ) :=
        lt_of_le_of_ne (Real.sqrt_nonneg _) (Ne.symm hne)
      rw [div_le_one hpos]
      exact Real.sqrt_le_sqrt (by exact_mod_cast h)
    · norm_num

/-! ## Lemmas on the controller -/

theorem updateTimeDisplay_eq (st : AppState) (c : Int) :
    updateTimeDisplay st c =
      { timeFilter := c
        stations := computeStationTraffic st.stations (filterTripsByTime st.trips c)
        trips := st.trips
        domainMax := st.domainMax } := rfl

/-- What every reachable state keeps: the trips, the scale's domain, and stations that
are an aggregation of the loaded stations. -/
theorem runInputs_invariant (stations : List Station) (trips : List Trip) (inputs : List Int) :
    (runInputs stations trips inputs).trips = trips ∧
    (runInputs stations trips inputs).domainMax =
      d3max (computeStationTraffic stations trips) (fun d => d.totalTraffic) ∧
    ∃ ts, (runInputs stations trips inputs).stations = computeStationTraffic stations ts := by
  induction inputs using List.reverseRecOn with
  | nil => exact ⟨rfl, rfl, trips, rfl⟩
  | append_singleton init c ih =>
    obtain ⟨h1, h2, ts, h3⟩ := ih
    unfold runInputs at h1 h2 h3 ⊢
    rw [List.foldl_append, List.foldl_cons, List.foldl_nil, updateTimeDisplay_eq]
    refine ⟨h1, h2, filterTripsByTime trips c, ?_⟩
    simp only [h3, h1, computeStationTraffic_overwrite]

/-- The state after a non-empty sequence of inputs depends on the last input only. -/
theorem runInputs_snoc (stations : List Station) (trips : List Trip) (inputs : List Int)
    (c : Int) :
    runInputs stations trips (inputs ++ [c]) =
      { timeFilter := c
        stations := computeStationTraffic stations (filterTripsByTime trips c)
        trips := trips
        domainMax := d3max (computeStationTraffic stations trips) (fun d => d.totalTraffic) } := by
  obtain ⟨h1, h2, ts, h3⟩ := runInputs_invariant stations trips inputs
  unfold runInputs at h1 h2 h3 ⊢
  rw [List.foldl_append, List.foldl_cons, List.foldl_nil, updateTimeDisplay_eq, h1, h2, h3,
    computeStationTraffic_overwrite]

/-! ## Properties of the aggregator -/

/-- C1: every station returned by `computeStationTraffic` has all three derived fields
set, with `totalTraffic` equal to `arrivals + departures`, whatever the fields held on
the input station. -/
theorem computeStationTraffic_total_eq_sum (stations : List Station) (trips : List Trip) :
    ∀ s ∈ computeStationTraffic stations trips,
      ∃ a d, s.arrivals = some a ∧ s.departures = some d ∧ s.totalTraffic = some (a + d) := by
  intro s hs
  rw [computeStationTraffic_eq_map] at hs
  obtain ⟨s0, _, rfl⟩ := List.mem_map.mp hs
  exact ⟨_, _, rfl, rfl, rfl⟩

theorem computeStationTraffic_total_eq_sum_witness :
    withCounts (freshStation "A") 1 1 ∈ computeStationTraffic staleStations scenarioTrips ∧
    ∃ a d, (withCounts (freshStation "A") 1 1).arrivals = some a ∧
      (withCounts (freshStation "A") 1 1).departures = some d ∧
      (withCounts (freshStation "A") 1 1).totalTraffic = some (a + d) :=
  ⟨by decide,
    computeStationTraffic_total_eq_sum staleStations scenarioTrips _ (by decide)⟩

/-- C2: `computeStationTraffic` sets each station's departures to the number of trips
whose `start_station_id` is the station's `short_name` and its arrivals to the number of
trips whose `end_station_id` is that `short_name` (zero when there is none); the function
is total, and a trip whose two station ids match no station changes no station's
counts. -/
theorem computeStationTraffic_counts (stations : List Station) (trips : List Trip) :
    computeStationTraffic stations trips =
      stations.map (fun s =>
        { s with
          arrivals := some (trips.countP (fun t => decide (t.end_station_id = s.short_name)))
          departures := some (trips.countP (fun t => decide (t.start_station_id = s.short_name)))
          totalTraffic := some
            (trips.countP (fun t => decide (t.end_station_id = s.short_name)) +
              trips.countP (fun t => decide (t.start_station_id = s.short_name))) }) ∧
    ∀ (before after : List Trip) (t : Trip),
      (∀ s ∈ stations, t.start_station_id ≠ s.short_name ∧ t.end_station_id ≠ s.short_name) →
      computeStationTraffic stations (before ++ t :: after) =
        computeStationTraffic stations (before ++ after) := by
  refine ⟨computeStationTraffic_eq_map stations trips, ?_⟩
  intro before after t ht
  rw [computeStationTraffic_eq_map, computeStationTraffic_eq_map]
  apply List.map_congr_left
  intro s hs
  obtain ⟨h1, h2⟩ := ht s hs
  simp [arrivalCount, departureCount, List.countP_cons, h1, h2]

theorem computeStationTraffic_counts_witness :
    computeStationTraffic scenarioStations scenarioTrips =
      [ { short_name := "A", name := "A", arrivals := some 1, departures := some 1,
          totalTraffic := some 2 },
        { short_name := "B", name := "B", arrivals := some 1, departures := some 1,
          totalTraffic := some 2 } ] ∧
    computeStationTraffic scenarioStations ([] ++ strayTrip :: scenarioTrips) =
      computeStationTraffic scenarioStations ([] ++ scenarioTrips) :=
  ⟨(computeStationTraffic_counts scenarioStations scenarioTrips).1.trans (by decide),
    (computeStationTraffic_counts scenarioStations scenarioTrips).2 [] scenarioTrips strayTrip
      (by decide)⟩

/-- C5: trip lists that are permutations of each other give every station the same
arrivals, departures and totalTraffic. -/
theorem computeStationTraffic_perm (stations : List Station) (trips1 trips2 : List Trip)
    (h : trips1.Perm trips2) :
    computeStationTraffic stations trips1 = computeStationTraffic stations trips2 := by
  rw [computeStationTraffic_eq_map, computeStationTraffic_eq_map]
  apply List.map_congr_left
  intro s _
  simp only [arrivalCount, departureCount, h.countP_eq]

theorem computeStationTraffic_perm_witness :
    scenarioTrips.Perm scenarioTrips.reverse ∧
    computeStationTraffic scenarioStations scenarioTrips =
      computeStationTraffic scenarioStations scenarioTrips.reverse :=
  ⟨(List.reverse_perm scenarioTrips).symm,
    computeStationTraffic_perm scenarioStations scenarioTrips scenarioTrips.reverse
      (List.reverse_perm scenarioTrips).symm⟩

/-! ## Properties of the trip filter -/

/-- C3: for a center `c` other than `-1`, `filterTripsByTime trips c` is the subsequence
of `trips`, in input order, of the trips with the start or the end within 60 minutes of
`c`: it is the filter of `trips` by that predicate, every returned trip satisfies it on
one timestamp at least, every omitted trip on neither. -/
theorem filterTripsByTime_window (trips : List Trip) (c : Int) (hc : c ≠ -1) :
    filterTripsByTime trips c =
      trips.filter (fun t => decide (withinWindow t.started_at c ∨ withinWindow t.ended_at c)) ∧
    (filterTripsByTime trips c).Sublist trips ∧
    (∀ t ∈ filterTripsByTime trips c, withinWindow t.started_at c ∨ withinWindow t.ended_at c) ∧
    (∀ t ∈ trips, t ∉ filterTripsByTime trips c →
      ¬ withinWindow t.started_at c ∧ ¬ withinWindow t.ended_at c) := by
  have hfilter : filterTripsByTime trips c =
      trips.filter (fun t => decide (withinWindow t.started_at c ∨ withinWindow t.ended_at c)) := by
    rw [filterTripsByTime_of_ne trips c hc]
    apply List.filter_congr
    intro t _
    rw [Bool.eq_iff_iff, tripInWindow_iff]
    simp
  refine ⟨hfilter, filterTripsByTime_sublist trips c, ?_, ?_⟩
  · intro t ht
    rw [hfilter, List.mem_filter] at ht
    simpa using ht.2
  · intro t ht hnot
    rw [hfilter, List.mem_filter] at hnot
    have : ¬ (withinWindow t.started_at c ∨ withinWindow t.ended_at c) := by
      intro hw
      exact hnot ⟨ht, by simpa using hw⟩
    exact not_or.mp this

theorem filterTripsByTime_window_witness :
    filterTripsByTime (lateTrip :: scenarioTrips) 480 =
      (lateTrip :: scenarioTrips).filter
        (fun t => decide (withinWindow t.started_at 480 ∨ withinWindow t.ended_at 480)) ∧
    (filterTripsByTime (lateTrip :: scenarioTrips) 480).Sublist (lateTrip :: scenarioTrips) ∧
    (∀ t ∈ filterTripsByTime (lateTrip :: scenarioTrips) 480,
      withinWindow t.started_at 480 ∨ withinWindow t.ended_at 480) ∧
    (∀ t ∈ lateTrip :: scenarioTrips, t ∉ filterTripsByTime (lateTrip :: scenarioTrips) 480 →
      ¬ withinWindow t.started_at 480 ∧ ¬ withinWindow t.ended_at 480) :=
  filterTripsByTime_window (lateTrip :: scenarioTrips) 480 (by decide)

/-- C4: with the sentinel `-1`, `filterTripsByTime` returns the trips themselves: same
elements, same length, same order, whatever the timestamps. -/
theorem filterTripsByTime_sentinel (trips : List Trip) :
    filterTripsByTime trips (-1) = trips := by
  simp [filterTripsByTime]

/-- C9: the window is linear, without wraparound at midnight.  For center 5 the start
23:50 (minute 1430) fails the test and a trip from 23:50 to 23:50 is never in
`filterTripsByTime trips 5`, although its distance to 5 on the dial is 15; for every
center `c` in `[0, 1440)` a trip whose two minute values are more than 60 away from `c`
in plain subtraction is excluded. -/
theorem filterTripsByTime_no_wraparound :
    minutesSinceMidnight lateTrip.started_at = some 1430 ∧
    jsLe (jsAbs (jsSub (minutesSinceMidnight lateTrip.started_at) (some 5))) (some 60) = false ∧
    circularDistance 1430 5 = 15 ∧
    (∀ trips : List Trip, lateTrip ∉ filterTripsByTime trips 5) ∧
    (∀ (c : Int) (trips : List Trip) (t : Trip) (ms me : Int),
      0 ≤ c → c < 1440 →
      minutesSinceMidnight t.started_at = some ms →
      minutesSinceMidnight t.ended_at = some me →
      60 < |ms - c| → 60 < |me - c| →
      t ∉ filterTripsByTime trips c) := by
  have hgen : ∀ (c : Int) (trips : List Trip) (t : Trip) (ms me : Int),
      0 ≤ c → c < 1440 →
      minutesSinceMidnight t.started_at = some ms →
      minutesSinceMidnight t.ended_at = some me →
      60 < |ms - c| → 60 < |me - c| →
      t ∉ filterTripsByTime trips c := by
    intro c trips t ms me h0 _ hms hme hs he hmem
    have hc : c ≠ -1 := by omega
    rw [filterTripsByTime_of_ne trips c hc, List.mem_filter, tripInWindow_iff,
      withinWindow_of_minutes _ c ms hms, withinWindow_of_minutes _ c me hme] at hmem
    rcases hmem.2 with h | h
    · exact absurd h (not_le.mpr hs)
    · exact absurd h (not_le.mpr he)
  refine ⟨rfl, ?_, ?_, ?_, hgen⟩
  · decide
  · decide
  · intro trips
    exact hgen 5 trips lateTrip 1430 1430 (by norm_num) (by norm_num) rfl rfl
      (by norm_num) (by norm_num)

theorem filterTripsByTime_no_wraparound_witness :
    circularDistance 1430 1435 ≤ 60 ∧ circularDistance 1430 5 ≤ 60 ∧
    lateTrip ∈ filterTripsByTime [lateTrip] 1435 ∧
    lateTrip ∉ filterTripsByTime [lateTrip] 5 :=
  ⟨by decide, by decide, by decide,
    filterTripsByTime_no_wraparound.2.2.2.2 5 [lateTrip] lateTrip 1430 1430
      (by norm_num) (by norm_num) rfl rfl (by norm_num) (by norm_num)⟩

/-! ## Properties of the controller and the scales -/

/-- C6: after any sequence of selection inputs the stations are those obtained by
aggregating the freshly loaded stations over `filterTripsByTime` of all trips at the last
input; the state depends on the last input only, the trips are untouched, and with no
input the stations are the aggregation over all trips. -/
theorem runInputs_last_input (stations : List Station) (trips : List Trip) (inputs : List Int)
    (c : Int) :
    (runInputs stations trips (inputs ++ [c])).stations =
      computeStationTraffic stations (filterTripsByTime trips c) ∧
    runInputs stations trips (inputs ++ [c]) = runInputs stations trips [c] ∧
    (runInputs stations trips (inputs ++ [c])).trips = trips ∧
    (runInputs stations trips []).stations =
      computeStationTraffic stations (filterTripsByTime trips (-1)) := by
  refine ⟨?_, ?_, ?_, ?_⟩
  · rw [runInputs_snoc]
  · have h := runInputs_snoc stations trips [] c
    rw [List.nil_append] at h
    rw [runInputs_snoc, h]
  · rw [runInputs_snoc]
  · simp [runInputs, initialState, filterTripsByTime]

/-- C7: for a station whose `totalTraffic` is 0 the ratio handed to the flow scale is
the constant 0.5 and the scale returns the bucket 0.5; the scale only ever returns one
of 0, 0.5 and 1. -/
theorem departureRatio_zero_traffic (d : Station) (h : d.totalTraffic = some 0) :
    departureRatio d = some (1 / 2) ∧ departureRatioStyle d = some (1 / 2) ∧
    ∀ (x : Option ℚ) (v : ℚ), stationFlow x = some v → v ∈ [(0 : ℚ), 1 / 2, 1] := by
  have hr : departureRatio d = some (1 / 2) := by
    simp [departureRatio, h]
  refine ⟨hr, ?_, ?_⟩
  · rw [departureRatioStyle, hr]
    norm_num [stationFlow, scaleQuantize, quantizeThresholds, bisectRight, bisectLoop,
      List.range, List.range.loop]
  · intro x v hv
    cases x with
    | none => simp [stationFlow, scaleQuantize] at hv
    | some r =>
      simp only [stationFlow, scaleQuantize] at hv
      exact List.get?_mem hv

theorem departureRatio_zero_traffic_witness :
    (runInputs scenarioStations scenarioTrips [600]).stations =
      [withCounts (freshStation "A") 0 0, withCounts (freshStation "B") 0 0] ∧
    (departureRatio (withCounts (freshStation "A") 0 0) = some (1 / 2) ∧
      departureRatioStyle (withCounts (freshStation "A") 0 0) = some (1 / 2)) ∧
    (departureRatio (withCounts (freshStation "B") 0 0) = some (1 / 2) ∧
      departureRatioStyle (withCounts (freshStation "B") 0 0) = some (1 / 2)) :=
  ⟨by decide,
    ⟨(departureRatio_zero_traffic (withCounts (freshStation "A") 0 0) rfl).1,
      (departureRatio_zero_traffic (withCounts (freshStation "A") 0 0) rfl).2.1⟩,
    ⟨(departureRatio_zero_traffic (withCounts (freshStation "B") 0 0) rfl).1,
      (departureRatio_zero_traffic (withCounts (freshStation "B") 0 0) rfl).2.1⟩⟩

/-- C10: each station's departures, arrivals and totalTraffic computed from the filtered
trips are at most the same station's values computed from all trips; so in every state of the
controller each station's totalTraffic lies in the fixed domain `[0, max]` of the radius
scale and its radius lies in `[2, 40]`. -/
theorem filtered_traffic_within_domain (stations : List Station) (trips : List Trip) (c : Int) :
    List.Forall₂
      (fun f u => f.short_name = u.short_name ∧ ∃ fa fd ua ud,
        f.arrivals = some fa ∧ f.departures = some fd ∧ f.totalTraffic = some (fa + fd) ∧
        u.arrivals = some ua ∧ u.departures = some ud ∧ u.totalTraffic = some (ua + ud) ∧
        fa ≤ ua ∧ fd ≤ ud ∧ fa + fd ≤ ua + ud)
      (computeStationTraffic stations (filterTripsByTime trips c))
      (computeStationTraffic stations trips) ∧
    ∀ (inputs : List Int), ∀ s ∈ (runInputs stations trips inputs).stations,
      ∃ M t, (runInputs stations trips inputs).domainMax = some M ∧
        s.totalTraffic = some t ∧ t ≤ M ∧
        radiusAttr M s = some (radiusScale M t) ∧
        2 ≤ radiusScale M t ∧ radiusScale M t ≤ 40 := by
  constructor
  · rw [computeStationTraffic_eq_map, computeStationTraffic_eq_map, List.forall₂_map_left_iff,
      List.forall₂_map_right_iff, List.forall₂_same]
    intro s0 _
    have ha := arrivalCount_le trips c s0.short_name
    have hd := departureCount_le trips c s0.short_name
    exact ⟨rfl, _, _, _, _, rfl, rfl, rfl, rfl, rfl, rfl, ha, hd, Nat.add_le_add ha hd⟩
  · intro inputs
    have key : ∀ (ts : List Trip),
        (∀ id, arrivalCount ts id ≤ arrivalCount trips id) →
        (∀ id, departureCount ts id ≤ departureCount trips id) →
        ∀ s ∈ computeStationTraffic stations ts,
          ∃ M t, d3max (computeStationTraffic stations trips) (fun d => d.totalTraffic) = some M ∧
            s.totalTraffic = some t ∧ t ≤ M ∧
            radiusAttr M s = some (radiusScale M t) ∧
            2 ≤ radiusScale M t ∧ radiusScale M t ≤ 40 := by
      intro ts ha hd s hs
      rw [computeStationTraffic_eq_map] at hs
      obtain ⟨s0, hs0, rfl⟩ := List.mem_map.mp hs
      have hfull : withCounts s0 (arrivalCount trips s0.short_name)
          (departureCount trips s0.short_name) ∈ computeStationTraffic stations trips := by
        rw [computeStationTraffic_eq_map]
        exact List.mem_map.mpr ⟨s0, hs0, rfl⟩
      obtain ⟨M, hM, hle⟩ := le_d3max (fun d : Station => d.totalTraffic) _ _ _ hfull rfl
      have hlt : arrivalCount ts s0.short_name + departureCount ts s0.short_name ≤ M :=
        le_trans (Nat.add_le_add (ha _) (hd _)) hle
      have hb := radiusScale_bounds M _ hlt
      exact ⟨M, _, hM, rfl, hlt, rfl, hb.1, hb.2⟩
    induction inputs using List.reverseRecOn with
    | nil =>
      intro s hs
      exact key trips (fun _ => le_refl _) (fun _ => le_refl _) s hs
    | append_singleton init c0 _ =>
      rw [runInputs_snoc]
      intro s hs
      exact key (filterTripsByTime trips c0) (arrivalCount_le trips c0)
        (departureCount_le trips c0) s hs

theorem filtered_traffic_within_domain_witness :
    withCounts (freshStation "A") 0 0 ∈ (runInputs scenarioStations scenarioTrips [600]).stations ∧
    ∃ M t, (runInputs scenarioStations scenarioTrips [600]).domainMax = some M ∧
      (withCounts (freshStation "A") 0 0).totalTraffic = some t ∧ t ≤ M ∧
      radiusAttr M (withCounts (freshStation "A") 0 0) = some (radiusScale M t) ∧
      2 ≤ radiusScale M t ∧ radiusScale M t ≤ 40 :=
  ⟨by decide,
    (filtered_traffic_within_domain scenarioStations scenarioTrips 600).2 [600] _ (by decide)⟩

/-! ## Unparseable timestamps -/

/-- C8, as stated, fails: a trip whose `started_at` did not parse is counted under the
sentinel and under center 480 (its end 08:10 is in the window), it enters the maximum
that fixes the radius scale's domain, and a trip with no parsed timestamp is counted
under the sentinel too. -/
theorem unparseable_trip_is_counted :
    fullyParsed halfParsedTrip = false ∧
    minutesSinceMidnight halfParsedTrip.started_at = none ∧
    (runInputs scenarioStations [halfParsedTrip] [-1]).stations =
      [withCounts (freshStation "A") 0 1, withCounts (freshStation "B") 1 0] ∧
    (runInputs scenarioStations [halfParsedTrip] [480]).stations =
      [withCounts (freshStation "A") 0 1, withCounts (freshStation "B") 1 0] ∧
    (runInputs scenarioStations [halfParsedTrip] [480]).domainMax = some 1 ∧
    (runInputs scenarioStations [unparsedTrip] [-1]).stations =
      [withCounts (freshStation "A") 0 1, withCounts (freshStation "B") 1 0] ∧
    computeStationTraffic scenarioStations
        (filterTripsByTime ([halfParsedTrip].filter fullyParsed) (-1)) =
      [withCounts (freshStation "A") 0 0, withCounts (freshStation "B") 0 0] := by
  decide

/-- C8, amended: for a center `c` other than `-1` an unparseable timestamp never passes
the window test, so the counts are those of the trips with a parsed timestamp (a trip
with neither timestamp parsed is excluded) and a trip with one unparseable timestamp is
kept exactly when its other timestamp is within 60 minutes of `c`; with the sentinel
every trip is kept, and in every state of the controller the domain of the radius scale
is the maximum of the totals aggregated over all trips, unparseable ones included.  The
functions are total, so the pass completes in every case. -/
theorem unparseable_trip_policy (stations : List Station) (trips : List Trip) (c : Int)
    (hc : c ≠ -1) :
    (runInputs stations trips [c]).stations =
      computeStationTraffic stations (filterTripsByTime (trips.filter hasParsedTime) c) ∧
    (∀ t ∈ trips, t.started_at = .invalid →
      (t ∈ filterTripsByTime trips c ↔ withinWindow t.ended_at c)) ∧
    (∀ t ∈ trips, t.ended_at = .invalid →
      (t ∈ filterTripsByTime trips c ↔ withinWindow t.started_at c)) ∧
    (∀ t ∈ trips, t.started_at = .invalid → t.ended_at = .invalid →
      t ∉ filterTripsByTime trips c) ∧
    (runInputs stations trips [-1]).stations = computeStationTraffic stations trips ∧
    (∀ inputs : List Int, (runInputs stations trips inputs).domainMax =
      d3max (computeStationTraffic stations trips) (fun d => d.totalTraffic)) := by
  have hmem : ∀ t, t ∈ filterTripsByTime trips c ↔
      t ∈ trips ∧ (withinWindow t.started_at c ∨ withinWindow t.ended_at c) := by
    intro t
    rw [filterTripsByTime_of_ne trips c hc, List.mem_filter, tripInWindow_iff]
  have hsame : filterTripsByTime (trips.filter hasParsedTime) c = filterTripsByTime trips c := by
    rw [filterTripsByTime_of_ne _ c hc, filterTripsByTime_of_ne _ c hc, List.filter_filter]
    apply List.filter_congr
    intro t _
    cases hw : tripInWindow c t with
    | false => rfl
    | true =>
      have h := (tripInWindow_iff c t).mp hw
      have hp : hasParsedTime t = true := by
        unfold hasParsedTime
        rcases h with h | h
        · have : t.started_at ≠ .invalid := by
            intro e
            rw [e] at h
            exact h
          simp [this]
        · have : t.ended_at ≠ .invalid := by
            intro e
            rw [e] at h
            exact h
          simp [this]
      simp [hp]
  have hlast := runInputs_snoc stations trips [] c
  have hsent := runInputs_snoc stations trips [] (-1)
  rw [List.nil_append] at hlast hsent
  refine ⟨?_, ?_, ?_, ?_, ?_, ?_⟩
  · rw [hlast, hsame]
  · intro t ht hinv
    rw [hmem, hinv]
    simp [ht, withinWindow]
  · intro t ht hinv
    rw [hmem, hinv]
    simp [ht, withinWindow]
  · intro t _ h1 h2
    rw [hmem, h1, h2]
    simp [withinWindow]
  · rw [hsent]
    simp [filterTripsByTime]
  · intro inputs
    exact (runInputs_invariant stations trips inputs).2.1

theorem unparseable_trip_policy_witness :
    (runInputs scenarioStations (unparsedTrip :: halfParsedTrip :: scenarioTrips) [480]).stations =
      computeStationTraffic scenarioStations
        (filterTripsByTime
          ((unparsedTrip :: halfParsedTrip :: scenarioTrips).filter hasParsedTime) 480) ∧
    (halfParsedTrip ∈ filterTripsByTime (unparsedTrip :: halfParsedTrip :: scenarioTrips) 480 ↔
      withinWindow halfParsedTrip.ended_at 480) ∧
    unparsedTrip ∉ filterTripsByTime (unparsedTrip :: halfParsedTrip :: scenarioTrips) 480 ∧
    (runInputs scenarioStations (unparsedTrip :: halfParsedTrip :: scenarioTrips) [480]).domainMax =
      some 4 ∧
    d3max (computeStationTraffic scenarioStations scenarioTrips) (fun d => d.totalTraffic) =
      some 2 :=
  ⟨(unparseable_trip_policy scenarioStations (unparsedTrip :: halfParsedTrip :: scenarioTrips)
      480 (by decide)).1,
    (unparseable_trip_policy scenarioStations (unparsedTrip :: halfParsedTrip :: scenarioTrips)
      480 (by decide)).2.1 halfParsedTrip (by decide) rfl,
    (unparseable_trip_policy scenarioStations (unparsedTrip :: halfParsedTrip :: scenarioTrips)
      480 (by decide)).2.2.2.1 unparsedTrip (by decide) rfl rfl,
    ((unparseable_trip_policy scenarioStations (unparsedTrip :: halfParsedTrip :: scenarioTrips)
      480 (by decide)).2.2.2.2.2 [480]).trans (by decide),
    by decide⟩

end Bikewatching
